import Mathlib

/-!
Shallow embedding of `src/tools/storage.ts` (promobase/playwright-mcp).

The file defines the two tool actions of the source:

* `saveStorageState.handle.action` (lines 48-69): capture the browser
  storage state, create the parent directory recursively, write the JSON
  encoding of the state to the given path.
* `loadStorageState.handle.action` (lines 105-160): read and parse the
  snapshot file, apply cookies in one batch, then for each origin entry
  navigate when the tab URL does not start with the origin and inject the
  localStorage entries through one structured `page.evaluate` call.

The JavaScript value space reachable from `JSON.parse` is embedded as the
inductive `Json` (JSON numbers are modelled as integers; no claim depends
on fractional values).  Collaborator calls (Playwright navigation, cookie
jar, script evaluation; node `fs`) are modelled as functions supplied in a
`Collab` record, and each action is interpreted as the trace of
collaborator calls it issues together with the observed tab URL and the
error that aborted it, if any.
-/

/-- JSON values as produced by `JSON.parse` (numbers restricted to
integers; no claim involves fractional numbers). -/
inductive Json where
  | null
  | bool (b : Bool)
  | num (n : Int)
  | str (s : String)
  | arr (elems : List Json)
  | obj (fields : List (String × Json))
deriving Repr

/-- First-match association lookup, used for JS property access on parsed
objects and for the modelled file systems. -/
def alookup {α : Type} : List (String × α) → String → Option α
  | [], _ => none
  | (k2, v) :: rest, k => if k2 = k then some v else alookup rest k

/-- JS property access `v.k` on a parsed JSON value: only objects carry
properties; on every other (non-null) value the access yields `undefined`,
modelled as `none`.  Access on `null` throws in JS and is handled by the
callers that can reach it. -/
def Json.get? : Json → String → Option Json
  | .obj fs, k => alookup fs k
  | _, _ => none

/-- JS truthiness of a possibly-`undefined` value (`none` is `undefined`). -/
def truthy : Option Json → Bool
  | none => false
  | some .null => false
  | some (.bool b) => b
  | some (.num n) => n != 0
  | some (.str s) => s ≠ ""
  | some (.arr _) => true
  | some (.obj _) => true

/-- JS `x > 0` for an exotic `length` property value, after ToNumber
coercion.  Fractional numeric strings are not modelled (the embedded
`Json` numbers are integers); such values coerce to `false` here. -/
def jsNumPos : Json → Bool
  | .num n => decide (0 < n)
  | .bool b => b
  | .str s =>
    if s.trim = "" then false
    else match s.trim.toInt? with
      | some n => decide (0 < n)
      | none => false
  | _ => false

/-- JS `x.length > 0` for a possibly-`undefined` `x`: arrays and strings
have a numeric `length`; plain objects only when they carry a `length`
field; on every other value `.length` is `undefined` and the comparison is
`false`.  (JS string length counts UTF-16 units; the embedding counts code
points, which agrees on all inputs exercised here.) -/
def jsLengthPos : Option Json → Bool
  | some (.arr xs) => decide (0 < xs.length)
  | some (.str s) => decide (0 < s.length)
  | some (.obj fs) =>
    match alookup fs "length" with
    | some v => jsNumPos v
    | none => false
  | _ => false

/-- The guard pattern `x && x.length > 0` used at storage.ts lines 114 and
140. -/
def jsGuardNonEmpty (x : Option Json) : Bool :=
  truthy x && jsLengthPos x

/-- JS `for..of` iteration: arrays yield their elements, strings yield
their characters as one-character strings, every other value is not
iterable (a `TypeError` at runtime, signalled as `none`). -/
def jsIterate : Json → Option (List Json)
  | .arr xs => some xs
  | .str s => some (s.data.map (fun ch => .str (String.mk [ch])))
  | _ => none

mutual

/-- JS ToString coercion of a parsed JSON value (as applied by
`String.prototype.startsWith` to its argument). -/
def jsToStr : Json → String
  | .null => "null"
  | .bool b => cond b "true" "false"
  | .num n => toString n
  | .str s => s
  | .arr xs => jsArrStr xs
  | .obj _ => "[object Object]"

/-- JS `Array.prototype.toString`: elements joined by commas, with `null`
elements rendered as the empty string. -/
def jsArrStr : List Json → String
  | [] => ""
  | [Json.null] => ""
  | [x] => jsToStr x
  | Json.null :: xs => "," ++ jsArrStr xs
  | x :: xs => jsToStr x ++ "," ++ jsArrStr xs

end

/-- JS ToString where the value may be `undefined` (`String(undefined)` is
`"undefined"`; this is what `currentUrl.startsWith(origin)` and
`localStorage.setItem` receive when a field is missing). -/
def jsToString : Option Json → String
  | none => "undefined"
  | some j => jsToStr j

/-- JS `s.startsWith(p)`: `p` is a character-sequence prefix of `s`. -/
def jsStartsWith (s p : String) : Bool :=
  p.data.isPrefixOf s.data

/-- Whether a parsed JSON value is `null` (property access on it throws a
`TypeError` in JS). -/
def Json.isNull : Json → Bool
  | .null => true
  | _ => false

/-- Failure kinds that can abort an action: file read (`ioError`),
`JSON.parse` (`parseError`), JS `TypeError` (iterating a non-iterable or
dereferencing `null`), and the opaque collaborator failures of navigation,
cookie application and script evaluation. -/
inductive JsError where
  | ioError
  | parseError
  | typeError
  | navigationError
  | cookieError
  | scriptError
deriving Repr, DecidableEq

/-- One collaborator call issued by an action, in issue order.  For
`evaluate`, `url` records `page.url()` at the moment the call is issued,
`origin` the loop variable `originData.origin` (coerced to a string) under
which the call was made, `script` the in-page code, and `args` the
serialized argument. -/
inductive Event where
  | readStorageState
  | mkdirRecursive (dir : String)
  | writeFile (p content : String)
  | readFile (p : String)
  | addCookies (cookies : Json)
  | goto (target : String)
  | evaluate (url origin script : String) (args : Json)
deriving Repr

/-- The browser collaborator: `nav` is `page.goto` (returning the landed
URL), `addC` is `browserContext.addCookies`, `evalInject` is
`page.evaluate` with the injection callback.  Each can fail with an opaque
error, which the action propagates. -/
structure Collab where
  nav : String → Except JsError String
  addC : Json → Except JsError Unit
  evalInject : Json → Except JsError Unit

/-- Result of interpreting an action: the trace of collaborator calls
issued (in order, including a final failing call), the tab URL when the
action stopped, and the error that aborted it (`none` on success). -/
structure RunResult where
  trace : List Event
  url : String
  error : Option JsError
deriving Repr

/-- Outcome of `fs.readFile` followed by `JSON.parse` (storage.ts lines
107-108).  Both are external collaborators (node `fs` and the JS runtime),
so their outcome is an input of the model: a read failure, a parse
failure, or the parsed JSON value. -/
inductive ReadParse where
  | readError
  | parseFailure
  | ok (st : Json)

/-- The in-page callback passed to `page.evaluate` at storage.ts lines
142-146.  It is a closed function literal — a constant independent of the
snapshot content and of the user-supplied path; the entries travel as the
serialized argument, never inside the code string. -/
def injectScript : String :=
  "(items) => \x7b for (const item of items) localStorage.setItem(item.name, item.value) \x7d"

/-- Lines 139-149: when `originData.localStorage && originData.localStorage.length > 0`,
issue one `page.evaluate(fn, items)` call; otherwise do nothing.  `u` is
the current tab URL, `origin` the already-coerced loop origin. -/
def injectPart (c : Collab) (u origin : String) (od : Json) : RunResult :=
  let ls := od.get? "localStorage"
  if jsGuardNonEmpty ls then
    match c.evalInject (ls.getD .null) with
    | .error e => ⟨[.evaluate u origin injectScript (ls.getD .null)], u, some e⟩
    | .ok _ => ⟨[.evaluate u origin injectScript (ls.getD .null)], u, none⟩
  else ⟨[], u, none⟩

/-- Lines 129-150, one iteration of the per-origin loop: read the current
URL, navigate when it does not start with the origin, then inject.  The
`goto` target records the origin value coerced to a string; a non-string
origin makes the navigation collaborator fail. -/
def processOrigin (c : Collab) (u : String) (od : Json) : RunResult :=
  let origin := jsToString (od.get? "origin")
  if jsStartsWith u origin then
    injectPart c u origin od
  else
    match c.nav origin with
    | .error e => ⟨[.goto origin], u, some e⟩
    | .ok u2 =>
      let r := injectPart c u2 origin od
      ⟨.goto origin :: r.trace, r.url, r.error⟩

/-- The per-origin loop (lines 129-150): strictly sequential, aborting at
the first failing iteration with no retry. -/
def runOrigins (c : Collab) : String → List Json → RunResult
  | u, [] => ⟨[], u, none⟩
  | u, od :: rest =>
    let r := processOrigin c u od
    match r.error with
    | some _ => r
    | none =>
      let r2 := runOrigins c r.url rest
      ⟨r.trace ++ r2.trace, r2.url, r2.error⟩

/-- Lines 120-129: the value iterated by the per-origin loop.  When
`storageState.origins` is falsy the loop body runs over `[]`; when it is
truthy but not iterable, or contains a `null` entry, the dead
origin-set loop at lines 122-126 throws a `TypeError` before any
navigation.  (That set is accumulated and never read — dead computation.) -/
def originsList (st : Json) : Except JsError (List Json) :=
  match st.get? "origins" with
  | none => .ok []
  | some og =>
    if truthy (some og) then
      match jsIterate og with
      | none => .error .typeError
      | some xs =>
        if xs.any Json.isNull then .error .typeError else .ok xs
    else .ok []

/-- The part of the load action after the cookie step: resolve the origins
list (possibly a `TypeError`), then run the per-origin loop. -/
def afterCookies (c : Collab) (u0 : String) (st : Json) : RunResult :=
  match originsList st with
  | .error e => ⟨[], u0, some e⟩
  | .ok l => runOrigins c u0 l

/-- The whole load action (storage.ts lines 105-160): read the file at
`p`, parse it, apply cookies in one batch when
`storageState.cookies && storageState.cookies.length > 0`, then run the
per-origin loop.  `u0` is the tab URL when the action starts. -/
def loadAction (c : Collab) (p u0 : String) (input : ReadParse) : RunResult :=
  match input with
  | .readError => ⟨[.readFile p], u0, some .ioError⟩
  | .parseFailure => ⟨[.readFile p], u0, some .parseError⟩
  | .ok st =>
    let r :=
      if jsGuardNonEmpty (st.get? "cookies") then
        match c.addC ((st.get? "cookies").getD .null) with
        | .error e => ⟨[.addCookies ((st.get? "cookies").getD .null)], u0, some e⟩
        | .ok _ =>
          let r2 := afterCookies c u0 st
          ⟨.addCookies ((st.get? "cookies").getD .null) :: r2.trace, r2.url, r2.error⟩
      else afterCookies c u0 st
    ⟨.readFile p :: r.trace, r.url, r.error⟩

/-- Node `path.dirname` (posix), as called at storage.ts line 53: scan from
the end, skip trailing separators and the basename, and return the text
before the separator found; `/` and `.` for the rooted and rootless
degenerate cases, `//` for a double-slash root. -/
def dirname (p : String) : String :=
  if p.length = 0 then "."
  else
    let cs := p.data
    let hasRoot := cs.head? = some '/'
    let r := (cs.drop 1).reverse
    let r2 := (r.dropWhile (fun ch => ch = '/')).dropWhile (fun ch => ch ≠ '/')
    if r2.length = 0 then (if hasRoot then "/" else ".")
    else if hasRoot ∧ r2.length = 1 then "//"
    else String.mk (cs.take r2.length)

/-- The chain `d, dirname d, dirname (dirname d), ...` up to its fixpoint,
with enough fuel (`dirname` never lengthens its argument by more than one
step before reaching a fixpoint). -/
def dirChain : Nat → String → List String
  | 0, d => [d]
  | n + 1, d =>
    let d2 := dirname d
    if d2 = d then [d] else d :: dirChain n d2

/-- The directory `d` together with all its ancestors: what
`fs.mkdir(d, recursive: true)` guarantees to exist afterwards. -/
def ancestorsIncl (d : String) : List String :=
  dirChain (d.length + 2) d

/-- One hexadecimal digit, for JSON string escaping of control
characters. -/
def hexDigit (n : Nat) : String :=
  String.mk [(("0123456789abcdef".data).getD n '0')]

/-- JSON escaping of one character, as performed by `JSON.stringify`. -/
def escChar (c : Char) : String :=
  if c = '"' then "\\\""
  else if c = '\\' then "\\\\"
  else if c = '\n' then "\\n"
  else if c = '\r' then "\\r"
  else if c = '\t' then "\\t"
  else if c = Char.ofNat 8 then "\\b"
  else if c = Char.ofNat 12 then "\\f"
  else if c.toNat < 32 then "\\u00" ++ hexDigit (c.toNat / 16) ++ hexDigit (c.toNat % 16)
  else String.mk [c]

/-- A JSON string literal with its quotes, as emitted by
`JSON.stringify`. -/
def jsonQuote (s : String) : String :=
  "\"" ++ String.join (s.data.map escChar) ++ "\""

/-- Indentation for nesting depth `k` under a two-space indent. -/
def jIndent (k : Nat) : String :=
  String.mk (List.replicate (2 * k) ' ')

mutual

/-- The encoding `JSON.stringify(v, null, 2)` at nesting depth `k` (storage.ts line
58). -/
def stringifyAt : Nat → Json → String
  | _, .null => "null"
  | _, .bool b => cond b "true" "false"
  | _, .num n => toString n
  | _, .str s => jsonQuote s
  | _, .arr [] => "[]"
  | k, .arr (x :: xs) =>
    "[\n" ++ stringifyItems (k + 1) (x :: xs) ++ "\n" ++ jIndent k ++ "]"
  | _, .obj [] => "\x7b\x7d"
  | k, .obj (f :: fs) =>
    "\x7b\n" ++ stringifyFields (k + 1) (f :: fs) ++ "\n" ++ jIndent k ++ "\x7d"

/-- Array elements at depth `k`, one per line, comma separated. -/
def stringifyItems : Nat → List Json → String
  | _, [] => ""
  | k, [x] => jIndent k ++ stringifyAt k x
  | k, x :: xs => jIndent k ++ stringifyAt k x ++ ",\n" ++ stringifyItems k xs

/-- Object fields at depth `k`, one per line, comma separated. -/
def stringifyFields : Nat → List (String × Json) → String
  | _, [] => ""
  | k, [(key, v)] => jIndent k ++ jsonQuote key ++ ": " ++ stringifyAt k v
  | k, (key, v) :: fs =>
    jIndent k ++ jsonQuote key ++ ": " ++ stringifyAt k v ++ ",\n" ++ stringifyFields k fs

end

/-- The encoding `JSON.stringify(v, null, 2)`: the human-readable encoding written by
the save action. -/
def stringify2 (j : Json) : String := stringifyAt 0 j

/-- The save action (storage.ts lines 48-69) as the trace of collaborator
calls it issues, in order: read the storage state from the browser
context, `fs.mkdir(path.dirname(p), recursive: true)`, then
`fs.writeFile(p, JSON.stringify(snapshot, null, 2), utf-8)`.  `snap` is
the snapshot returned by the capture collaborator
`browserContext.storageState()`. -/
def saveTrace (snap : Json) (p : String) : List Event :=
  [.readStorageState, .mkdirRecursive (dirname p), .writeFile p (stringify2 snap)]

/-- Assignment into an association list, replacing the first binding of
the key or appending a new one: the semantics of `localStorage.setItem`
and of an overwriting file write. -/
def setKV {α : Type} : List (String × α) → String → α → List (String × α)
  | [], k, v => [(k, v)]
  | (k2, v2) :: rest, k, v =>
    if k2 = k then (k, v) :: rest else (k2, v2) :: setKV rest k v

/-- The field `item.name` as read by the injection callback (`setItem` coerces it to
a string; a missing field reads as `undefined`). -/
def itemName (it : Json) : String := jsToString (it.get? "name")

/-- The field `item.value` as read by the injection callback. -/
def itemValue (it : Json) : String := jsToString (it.get? "value")

/-- The body of the injection callback (storage.ts lines 143-145): iterate
the items in order and `localStorage.setItem(item.name, item.value)` for
each, so that a later item with the same name overwrites an earlier
one. -/
def setItems (items : List Json) (st : List (String × String)) : List (String × String) :=
  items.foldl (fun acc it => setKV acc (itemName it) (itemValue it)) st

/-- The value the injection callback leaves under key `k` after running on
`items` alone: the value of the last item named `k`, if any. -/
def lastValue (items : List Json) (k : String) : Option String :=
  alookup ((items.map (fun it => (itemName it, itemValue it))).reverse) k

/-- The cookie list handed to `addCookies` (a non-array argument would be
rejected by the collaborator; its applied semantics is the singleton). -/
def cookieList : Json → List Json
  | .arr xs => xs
  | j => [j]

/-- The session state mutated by a restore: the cookie jar and the
per-partition local storage (keyed by the storage partition of a URL,
which the browser derives from it — `partOf` below). -/
structure Session where
  cookieJar : List Json
  store : String → List (String × String)

/-- How one successfully completed collaborator call mutates the session.
`partOf` is the URL-to-storage-partition (origin) mapping of the browser.
Navigation changes only the tab location, which `RunResult.url` tracks;
file-system calls and reads leave the session alone. -/
def applyEvent (partOf : String → String) (s : Session) : Event → Session
  | .addCookies j => { s with cookieJar := s.cookieJar ++ cookieList j }
  | .evaluate u _ _ args =>
    { s with
      store := fun part =>
        if part = partOf u then setItems ((jsIterate args).getD []) (s.store part)
        else s.store part }
  | _ => s

/-- Session state after a trace of completed collaborator calls. -/
def applyTrace (partOf : String → String) (tr : List Event) (s : Session) : Session :=
  tr.foldl (applyEvent partOf) s

/-- The modelled file system: existing directories and files (path to
content). -/
structure FS where
  dirs : List String
  files : List (String × String)

/-- How one collaborator call mutates the file system: `mkdir` with
`recursive: true` makes the directory and all its ancestors exist
(succeeding when they already do), `writeFile` overwrites the path
unconditionally, and every other call leaves the file system alone. -/
def applyFSEvent (fs : FS) : Event → FS
  | .mkdirRecursive d => { fs with dirs := ancestorsIncl d ++ fs.dirs }
  | .writeFile p content => { fs with files := setKV fs.files p content }
  | _ => fs

/-- File-system state after a trace of collaborator calls. -/
def applyFS (tr : List Event) (fs : FS) : FS :=
  tr.foldl applyFSEvent fs

/-- Whether a collaborator call touches the session (cookie jar, tab
location, or storage). -/
def Event.mutatesSession : Event → Bool
  | .addCookies _ => true
  | .goto _ => true
  | .evaluate _ _ _ _ => true
  | _ => false

/-- Whether a call is a navigation. -/
def Event.isGoto : Event → Bool
  | .goto _ => true
  | _ => false

/-- Whether a call is a script evaluation. -/
def Event.isEval : Event → Bool
  | .evaluate _ _ _ _ => true
  | _ => false

/-- Whether a call is one issued by the per-origin loop (navigation or
script evaluation). -/
def Event.isOriginEvent : Event → Bool
  | .goto _ => true
  | .evaluate _ _ _ _ => true
  | _ => false

/-- A collaborator whose calls all succeed and whose navigation lands
exactly on the requested URL. -/
def cOk : Collab :=
  ⟨fun target => .ok target, fun _ => .ok (), fun _ => .ok ()⟩

/-- A collaborator whose navigation always fails (cookie application and
script evaluation succeed). -/
def cFailNav : Collab :=
  ⟨fun _ => .error .navigationError, fun _ => .ok (), fun _ => .ok ()⟩

/-- A sample localStorage item. -/
def exItem : Json := .obj [("name", .str "k"), ("value", .str "v")]

/-- A sample origin entry with one localStorage item. -/
def exEntry : Json :=
  .obj [("origin", .str "https://e"), ("localStorage", .arr [exItem])]

/-- A sample snapshot with one origin entry and no cookies. -/
def exState1 : Json := .obj [("origins", .arr [exEntry])]

/-- A sample cookie. -/
def exCookie : Json := .obj [("name", .str "session"), ("value", .str "abc")]

/-- A sample snapshot with one cookie and no origin entries. -/
def exState3 : Json :=
  .obj [("cookies", .arr [exCookie]), ("origins", .arr [])]

/-- A sample origin entry with no localStorage field. -/
def od0 : Json := .obj [("origin", .str "https://a")]

/-- An origin entry as written by the serializer. -/
def originEntry (o : String) (items : List Json) : Json :=
  .obj [("origin", .str o), ("localStorage", .arr items)]

/-- A snapshot whose origins sequence holds two entries with the same
origin string. -/
def dupState (o : String) (its1 its2 : List Json) : Json :=
  .obj [("origins", .arr [originEntry o its1, originEntry o its2])]

/-- Every string starts with itself. -/
lemma jsStartsWith_self (s : String) : jsStartsWith s s = true := by
  simp [jsStartsWith, List.isPrefixOf_iff_prefix]

/-- Every call issued by the injection step is one `evaluate` of the
constant script at the current URL, carrying the raw localStorage value as
the structured argument. -/
lemma mem_injectPart {c : Collab} {u o : String} {od : Json} {e : Event}
    (h : e ∈ (injectPart c u o od).trace) :
    e = .evaluate u o injectScript ((od.get? "localStorage").getD .null) := by
  simp only [injectPart] at h
  split at h
  · split at h <;> simpa using h
  · simp at h

/-- Shape of the calls issued by one iteration of the per-origin loop. -/
lemma mem_processOrigin {c : Collab} {u : String} {od : Json} {e : Event}
    (h : e ∈ (processOrigin c u od).trace) :
    e = .goto (jsToString (od.get? "origin")) ∨
      ∃ u2, e = .evaluate u2 (jsToString (od.get? "origin")) injectScript
          ((od.get? "localStorage").getD .null) ∧
        (jsStartsWith u2 (jsToString (od.get? "origin")) = true ∨
          c.nav (jsToString (od.get? "origin")) = .ok u2) := by
  simp only [processOrigin] at h
  split at h
  · right
    rename_i hs
    exact ⟨u, mem_injectPart h, Or.inl hs⟩
  · rename_i hs
    split at h
    · simp at h
      left
      exact h
    · rename_i u2 hnav
      simp at h
      rcases h with h | h
      · left; exact h
      · right
        exact ⟨u2, mem_injectPart h, Or.inr hnav⟩

/-- Shape of the calls issued by the whole per-origin loop: only
navigations and evaluations of the constant script, each evaluation issued
at a URL that either already started with its origin or was produced by
navigating to it. -/
lemma mem_runOrigins {c : Collab} {l : List Json} {u : String} {e : Event}
    (h : e ∈ (runOrigins c u l).trace) :
    (∃ t, e = .goto t) ∨
      ∃ u2 o2 a, e = .evaluate u2 o2 injectScript a ∧
        (jsStartsWith u2 o2 = true ∨ c.nav o2 = .ok u2) := by
  induction l generalizing u with
  | nil => simp [runOrigins] at h
  | cons od rest ih =>
    simp only [runOrigins] at h
    have step : ∀ e2 : Event, e2 ∈ (processOrigin c u od).trace →
        (∃ t, e2 = .goto t) ∨
          ∃ u2 o2 a, e2 = .evaluate u2 o2 injectScript a ∧
            (jsStartsWith u2 o2 = true ∨ c.nav o2 = .ok u2) := by
      intro e2 h2
      rcases mem_processOrigin h2 with h3 | ⟨u2, h3, h4⟩
      · exact Or.inl ⟨_, h3⟩
      · exact Or.inr ⟨u2, _, _, h3, h4⟩
    split at h
    · exact step e h
    · rw [List.mem_append] at h
      rcases h with h | h
      · exact step e h
      · exact ih h

/-- Shape of the calls issued by the whole load action. -/
lemma mem_loadAction {c : Collab} {p u0 : String} {input : ReadParse} {e : Event}
    (h : e ∈ (loadAction c p u0 input).trace) :
    e = .readFile p ∨ (∃ j, e = .addCookies j) ∨ (∃ t, e = .goto t) ∨
      ∃ u2 o2 a, e = .evaluate u2 o2 injectScript a ∧
        (jsStartsWith u2 o2 = true ∨ c.nav o2 = .ok u2) := by
  have hAfter : ∀ e2 : Event, ∀ st : Json, e2 ∈ (afterCookies c u0 st).trace →
      (∃ t, e2 = .goto t) ∨
        ∃ u2 o2 a, e2 = .evaluate u2 o2 injectScript a ∧
          (jsStartsWith u2 o2 = true ∨ c.nav o2 = .ok u2) := by
    intro e2 st h2
    simp only [afterCookies] at h2
    split at h2
    · simp at h2
    · exact mem_runOrigins h2
  match input with
  | .readError => simp [loadAction] at h; exact Or.inl h
  | .parseFailure => simp [loadAction] at h; exact Or.inl h
  | .ok st =>
    simp only [loadAction, List.mem_cons] at h
    rcases h with h | h
    · exact Or.inl h
    · split at h
      · split at h
        · simp at h
          exact Or.inr (Or.inl ⟨_, h⟩)
        · simp only [List.mem_cons] at h
          rcases h with h | h
          · exact Or.inr (Or.inl ⟨_, h⟩)
          · exact Or.inr (Or.inr (hAfter e st h))
      · exact Or.inr (Or.inr (hAfter e st h))

/-- One loop iteration issues at most one navigation. -/
lemma countGoto_processOrigin (c : Collab) (u : String) (od : Json) :
    (processOrigin c u od).trace.countP (fun ev => ev.isGoto) ≤ 1 := by
  have hInj : ∀ u2 o2 : String,
      (injectPart c u2 o2 od).trace.countP (fun ev => ev.isGoto) = 0 := by
    intro u2 o2
    simp only [injectPart]
    split
    · split <;> simp [Event.isGoto]
    · simp
  simp only [processOrigin]
  split
  · simp [hInj]
  · split
    · simp [Event.isGoto]
    · rename_i u2 hnav
      rw [List.countP_cons, hInj u2 _]
      simp [Event.isGoto]

/-- One loop iteration issues at most one script evaluation. -/
lemma countEval_processOrigin (c : Collab) (u : String) (od : Json) :
    (processOrigin c u od).trace.countP (fun ev => ev.isEval) ≤ 1 := by
  have hInj : ∀ u2 o2 : String,
      (injectPart c u2 o2 od).trace.countP (fun ev => ev.isEval) ≤ 1 := by
    intro u2 o2
    simp only [injectPart]
    split
    · split <;> simp [Event.isEval]
    · simp
  simp only [processOrigin]
  split
  · exact hInj u _
  · split
    · simp [Event.isEval]
    · simp only [List.countP_cons, Event.isEval]
      simpa using hInj _ _

/-- The per-origin loop issues at most one navigation and at most one
evaluation per origin entry: nothing is retried. -/
lemma count_runOrigins (c : Collab) (u : String) (l : List Json) :
    (runOrigins c u l).trace.countP (fun ev => ev.isGoto) ≤ l.length ∧
      (runOrigins c u l).trace.countP (fun ev => ev.isEval) ≤ l.length := by
  induction l generalizing u with
  | nil => simp [runOrigins]
  | cons od rest ih =>
    simp only [runOrigins]
    split
    · constructor
      · exact le_trans (countGoto_processOrigin c u od) (by simp)
      · exact le_trans (countEval_processOrigin c u od) (by simp)
    · simp only [List.countP_append, List.length_cons]
      constructor
      · have h1 := countGoto_processOrigin c u od
        have h2 := (ih (processOrigin c u od).url).1
        omega
      · have h1 := countEval_processOrigin c u od
        have h2 := (ih (processOrigin c u od).url).2
        omega

/-- Looking a key up after `setKV` yields the written value at that key
and the old value elsewhere. -/
lemma alookup_setKV {α : Type} (l : List (String × α)) (n k : String) (v : α) :
    alookup (setKV l n v) k = if n = k then some v else alookup l k := by
  induction l with
  | nil => simp [setKV, alookup]
  | cons kv rest ih =>
    obtain ⟨k2, v2⟩ := kv
    simp only [setKV]
    by_cases h2 : k2 = n
    · subst h2
      rw [if_pos rfl]
      simp only [alookup]
      by_cases h3 : k2 = k
      · subst h3
        simp
      · simp [h3]
    · rw [if_neg h2]
      simp only [alookup]
      by_cases h3 : k2 = k
      · have hnk : ¬ n = k := fun hh => h2 (h3.trans hh.symm)
        simp [h3, hnk]
      · simp [h3, ih]

/-- Association lookup over an appended list prefers the left part. -/
lemma alookup_append {α : Type} (l1 l2 : List (String × α)) (k : String) :
    alookup (l1 ++ l2) k = (alookup l1 k).orElse (fun _ => alookup l2 k) := by
  induction l1 with
  | nil => simp [alookup]
  | cons kv rest ih =>
    obtain ⟨k2, v2⟩ := kv
    simp only [List.cons_append, alookup]
    by_cases h2 : k2 = k
    · simp [h2]
    · simp [h2, ih]

/-- Running the injection callback over `items` leaves, under every key,
the value of the last item with that name when one exists, and the prior
value otherwise. -/
lemma alookup_setItems (items : List Json) (st : List (String × String)) (k : String) :
    alookup (setItems items st) k =
      (lastValue items k).orElse (fun _ => alookup st k) := by
  induction items generalizing st with
  | nil => simp [setItems, lastValue, alookup]
  | cons it its ih =>
    have hfold : setItems (it :: its) st = setItems its (setKV st (itemName it) (itemValue it)) := rfl
    rw [hfold, ih]
    have hlast : lastValue (it :: its) k =
        (lastValue its k).orElse
          (fun _ => if itemName it = k then some (itemValue it) else none) := by
      simp only [lastValue, List.map_cons, List.reverse_cons, alookup_append]
      simp [alookup]
    rw [hlast, alookup_setKV]
    cases hv : lastValue its k <;> by_cases hn : itemName it = k <;>
      simp [hv, hn, Option.orElse]

/-- Every collaborator call can only extend the cookie jar, never remove
from it. -/
lemma cookieJar_applyEvent (partOf : String → String) (s : Session) (e : Event) :
    ∃ ext, (applyEvent partOf s e).cookieJar = s.cookieJar ++ ext := by
  cases e <;> simp [applyEvent]

/-- Applying a trace of completed calls only extends the cookie jar:
everything applied before a failure remains applied afterwards. -/
lemma cookieJar_applyTrace (partOf : String → String) (tr : List Event) (s : Session) :
    ∃ ext, (applyTrace partOf tr s).cookieJar = s.cookieJar ++ ext := by
  induction tr generalizing s with
  | nil => exact ⟨[], by simp [applyTrace]⟩
  | cons e rest ih =>
    have hstep : applyTrace partOf (e :: rest) s = applyTrace partOf rest (applyEvent partOf s e) := rfl
    obtain ⟨x1, hx1⟩ := cookieJar_applyEvent partOf s e
    obtain ⟨x2, hx2⟩ := ih (applyEvent partOf s e)
    exact ⟨x1 ++ x2, by rw [hstep, hx2, hx1, List.append_assoc]⟩

/-- C1: during restore, every localStorage-injecting script evaluation is
issued while the tab URL starts with the origin string of the entry being
restored, given that navigation settles on a URL starting with its
target. -/
theorem c1_injection_url_starts_with_origin (c : Collab)
    (hnav : ∀ t u2, c.nav t = .ok u2 → jsStartsWith u2 t = true)
    (p u0 : String) (input : ReadParse) (u o sc : String) (a : Json)
    (hmem : Event.evaluate u o sc a ∈ (loadAction c p u0 input).trace) :
    jsStartsWith u o = true := by
  rcases mem_loadAction hmem with h | ⟨j, h⟩ | ⟨t, h⟩ | ⟨u2, o2, a2, h, hcase⟩
  · simp at h
  · simp at h
  · simp at h
  · rw [Event.evaluate.injEq] at h
    obtain ⟨h1, h2, h3, h4⟩ := h
    subst h1; subst h2
    rcases hcase with hs | hn
    · exact hs
    · exact hnav _ _ hn

/-- Witness for C1 at a concrete snapshot: the tab already sits on a page
of the origin, so injection happens there. -/
theorem c1_witness : jsStartsWith "https://e/home" "https://e" = true :=
  c1_injection_url_starts_with_origin cFailNav
    (fun t u2 h => by simp [cFailNav] at h)
    "p" "https://e/home" (.ok exState1) "https://e/home" "https://e" injectScript
    (Json.arr [exItem])
    (by
      have h : (loadAction cFailNav "p" "https://e/home" (.ok exState1)).trace =
          [Event.readFile "p",
           Event.evaluate "https://e/home" "https://e" injectScript (Json.arr [exItem])] := rfl
      rw [h]
      simp)

/-- Counterexample for C2 as stated: a file whose content is valid JSON
(`\x7b\x7d`) with both required arrays missing does not fail with
`ParseError` — the load action completes successfully, touching nothing
beyond the file read. -/
theorem c2_counterexample :
    loadAction cOk "bad-shape.json" "u0" (.ok (Json.obj [])) =
      ⟨[Event.readFile "bad-shape.json"], "u0", none⟩ := rfl

/-- C2 as amended: a valid-JSON object in which the `cookies` and
`origins` fields are absent is tolerated; the load action succeeds with no
session mutation instead of failing with `ParseError`. -/
theorem c2_missing_fields_tolerated (c : Collab) (p u0 : String)
    (fields : List (String × Json))
    (hc : alookup fields "cookies" = none) (ho : alookup fields "origins" = none) :
    loadAction c p u0 (.ok (.obj fields)) = ⟨[Event.readFile p], u0, none⟩ := by
  have hget : ∀ k : String, (Json.obj fields).get? k = alookup fields k := fun _ => rfl
  simp [loadAction, hget, hc, ho, jsGuardNonEmpty, truthy, afterCookies, originsList,
    runOrigins]

/-- Witness for the amended C2 at a concrete object with only an unknown
field. -/
theorem c2_witness :
    loadAction cOk "q2" "v" (.ok (Json.obj [("extra", Json.num 1)])) =
      ⟨[Event.readFile "q2"], "v", none⟩ :=
  c2_missing_fields_tolerated cOk "q2" "v" [("extra", Json.num 1)] rfl rfl

/-- C3: when the parsed snapshot has a non-empty cookies array, the load
action issues the cookie application as one batch call carrying the whole
array, directly after the file read and before every navigation and every
script evaluation, and issues no second cookie call. -/
theorem c3_cookies_single_batch_before_navigation (c : Collab) (p u0 : String)
    (st : Json) (cs : List Json)
    (hc : st.get? "cookies" = some (.arr cs)) (hne : cs ≠ []) :
    ∃ rest, (loadAction c p u0 (.ok st)).trace =
        Event.readFile p :: Event.addCookies (Json.arr cs) :: rest
      ∧ ∀ e ∈ rest, e.isOriginEvent = true := by
  have hg : jsGuardNonEmpty (some (Json.arr cs)) = true := by
    simp [jsGuardNonEmpty, truthy, jsLengthPos, List.length_pos, hne]
  have hAfter : ∀ e ∈ (afterCookies c u0 st).trace, e.isOriginEvent = true := by
    intro e he
    simp only [afterCookies] at he
    split at he
    · simp at he
    · rcases mem_runOrigins he with ⟨t, rfl⟩ | ⟨u2, o2, a2, rfl, _⟩ <;> rfl
  simp only [loadAction, hc, Option.getD_some, hg, if_true]
  cases hadd : c.addC (Json.arr cs) with
  | error e => exact ⟨[], by simp [hadd, hg], by simp⟩
  | ok _ => exact ⟨(afterCookies c u0 st).trace, by simp [hadd, hg], hAfter⟩

/-- Witness for C3 at a concrete snapshot with one cookie. -/
theorem c3_witness :
    ∃ rest, (loadAction cOk "p3" "u" (.ok exState3)).trace =
        Event.readFile "p3" :: Event.addCookies (Json.arr [exCookie]) :: rest
      ∧ ∀ e ∈ rest, e.isOriginEvent = true :=
  c3_cookies_single_batch_before_navigation cOk "p3" "u" exState3 [exCookie] rfl
    (by simp)

/-- C4: on a file whose content is not valid JSON the load action fails
with `ParseError` after the file read, and its trace mutates no session:
no cookie call, no navigation, no script evaluation. -/
theorem c4_invalid_json_no_mutation (c : Collab) (p u0 : String) :
    loadAction c p u0 .parseFailure = ⟨[Event.readFile p], u0, some .parseError⟩
    ∧ ∀ (partOf : String → String) (s : Session),
        applyTrace partOf (loadAction c p u0 .parseFailure).trace s = s :=
  ⟨rfl, fun _ _ => rfl⟩

/-- C5: one iteration of the per-origin loop navigates exactly when the
current URL does not start with the origin string of the entry — also when the
entry has nothing to inject — and otherwise skips navigation and proceeds
to inject on the current page; the loop runs that iteration first when
the entry heads the origins sequence. -/
theorem c5_navigate_iff_url_mismatch (c : Collab) (u : String) (od : Json) :
    ((Event.goto (jsToString (od.get? "origin")) ∈ (processOrigin c u od).trace) ↔
        jsStartsWith u (jsToString (od.get? "origin")) = false)
    ∧ (jsStartsWith u (jsToString (od.get? "origin")) = true →
        processOrigin c u od = injectPart c u (jsToString (od.get? "origin")) od)
    ∧ ∀ rest, ∃ t2,
        (runOrigins c u (od :: rest)).trace = (processOrigin c u od).trace ++ t2 := by
  refine ⟨⟨?_, ?_⟩, ?_, ?_⟩
  · intro hmem
    cases hb : jsStartsWith u (jsToString (od.get? "origin"))
    · rfl
    · exfalso
      have hPO : processOrigin c u od =
          injectPart c u (jsToString (od.get? "origin")) od := by
        simp [processOrigin, hb]
      rw [hPO] at hmem
      have h2 := mem_injectPart hmem
      simp at h2
  · intro hs
    simp only [processOrigin, hs, Bool.false_eq_true, if_false]
    cases hnav : c.nav (jsToString (od.get? "origin")) with
    | error e => simp
    | ok u2 => simp
  · intro hs
    simp [processOrigin, hs]
  · intro rest
    simp only [runOrigins]
    cases herr : (processOrigin c u od).error with
    | some e => exact ⟨[], by simp [herr]⟩
    | none =>
      exact ⟨(runOrigins c (processOrigin c u od).url rest).trace, by simp [herr]⟩

/-- Witness for C5: on a tab at `zzz`, restoring an entry for origin
`https://a` with no storage to inject still issues the navigation. -/
theorem c5_witness :
    Event.goto (jsToString (od0.get? "origin")) ∈ (processOrigin cOk "zzz" od0).trace :=
  (c5_navigate_iff_url_mismatch cOk "zzz" od0).1.mpr (by decide)

/-- C6: the in-page code executed during restore is the constant
injection callback — never code assembled from snapshot data or from the
user-supplied path — with the entries travelling as the structured
argument; the save action executes no in-page code at all. -/
theorem c6_structured_injection_only (c : Collab) (p u0 : String) (input : ReadParse) :
    (∀ u o sc a, Event.evaluate u o sc a ∈ (loadAction c p u0 input).trace →
        sc = injectScript)
    ∧ ∀ (snap : Json) (q : String), ∀ e ∈ saveTrace snap q, e.isEval = false := by
  constructor
  · intro u o sc a hmem
    rcases mem_loadAction hmem with h | ⟨j, h⟩ | ⟨t, h⟩ | ⟨u2, o2, a2, h, _⟩
    · simp at h
    · simp at h
    · simp at h
    · rw [Event.evaluate.injEq] at h
      exact h.2.2.1
  · intro snap q e he
    simp only [saveTrace, List.mem_cons, List.not_mem_nil, or_false] at he
    rcases he with rfl | rfl | rfl <;> rfl

/-- Witness for C6 at a concrete restore that issues one evaluation. -/
theorem c6_witness : injectScript = injectScript :=
  (c6_structured_injection_only cOk "p6" "https://e/home" (.ok exState1)).1
    "https://e/home" "https://e" injectScript (Json.arr [exItem])
    (by
      have h : (loadAction cOk "p6" "https://e/home" (.ok exState1)).trace =
          [Event.readFile "p6",
           Event.evaluate "https://e/home" "https://e" injectScript (Json.arr [exItem])] := rfl
      rw [h]
      simp)

/-- C7: a failing iteration aborts the per-origin loop with that error and
the remaining entries contribute nothing; a failing cookie batch aborts
the whole load right after it; no call is retried (at most one navigation
and one evaluation per entry); and an applied trace only ever extends the
cookie jar — nothing applied before a failure is unwound. -/
theorem c7_abort_no_retry_no_rollback :
    (∀ (c : Collab) (u : String) (od : Json) (rest : List Json) (e : JsError),
        (processOrigin c u od).error = some e →
          runOrigins c u (od :: rest) = processOrigin c u od)
    ∧ (∀ (c : Collab) (p u0 : String) (st : Json) (e : JsError),
        jsGuardNonEmpty (st.get? "cookies") = true →
        c.addC ((st.get? "cookies").getD .null) = .error e →
          loadAction c p u0 (.ok st) =
            ⟨[Event.readFile p, Event.addCookies ((st.get? "cookies").getD .null)],
              u0, some e⟩)
    ∧ (∀ (c : Collab) (u : String) (l : List Json),
        (runOrigins c u l).trace.countP (fun ev => ev.isGoto) ≤ l.length ∧
          (runOrigins c u l).trace.countP (fun ev => ev.isEval) ≤ l.length)
    ∧ ∀ (partOf : String → String) (tr : List Event) (s : Session),
        ∃ ext, (applyTrace partOf tr s).cookieJar = s.cookieJar ++ ext := by
  refine ⟨?_, ?_, count_runOrigins, cookieJar_applyTrace⟩
  · intro c u od rest e he
    simp [runOrigins, he]
  · intro c p u0 st e hg hf
    simp [loadAction, hg, hf]

/-- Witness for C7: a failing navigation on the first entry terminates the
loop at once. -/
theorem c7_witness :
    runOrigins cFailNav "z" [od0] = processOrigin cFailNav "z" od0 :=
  c7_abort_no_retry_no_rollback.1 cFailNav "z" od0 [] .navigationError rfl

/-- C8: the save action first creates the parent directory of the path
with all missing ancestors (a recursive creation that also succeeds when
they already exist), then writes the two-space-indented JSON encoding of
the captured state, overwriting whatever the file system previously held
at the path — for every prior file-system state. -/
theorem c8_save_mkdir_then_overwrite (fs0 : FS) (snap : Json) (p : String) :
    saveTrace snap p =
      [Event.readStorageState, Event.mkdirRecursive (dirname p),
       Event.writeFile p (stringify2 snap)]
    ∧ alookup (applyFS (saveTrace snap p) fs0).files p = some (stringify2 snap)
    ∧ ∀ d ∈ ancestorsIncl (dirname p), d ∈ (applyFS (saveTrace snap p) fs0).dirs := by
  refine ⟨rfl, ?_, ?_⟩
  · show alookup (setKV fs0.files p (stringify2 snap)) p = some (stringify2 snap)
    rw [alookup_setKV]
    simp
  · intro d hd
    show d ∈ ancestorsIncl (dirname p) ++ fs0.dirs
    exact List.mem_append_left _ hd

/-- Witness for C8 on an empty file system and a nested path. -/
theorem c8_witness :
    alookup (applyFS (saveTrace (Json.obj []) "/a/b/c.json") ⟨[], []⟩).files
        "/a/b/c.json" = some (stringify2 (Json.obj [])) :=
  (c8_save_mkdir_then_overwrite ⟨[], []⟩ (Json.obj []) "/a/b/c.json").2.1

/-- C9: the save action is read-only with respect to the session — its
trace contains no session-mutating call, and applying it to any session
state returns that state unchanged; its only writes target the file
system. -/
theorem c9_save_session_read_only (snap : Json) (p : String)
    (partOf : String → String) (s : Session) :
    applyTrace partOf (saveTrace snap p) s = s
    ∧ ∀ e ∈ saveTrace snap p, e.mutatesSession = false := by
  refine ⟨rfl, ?_⟩
  intro e he
  simp only [saveTrace, List.mem_cons, List.not_mem_nil, or_false] at he
  rcases he with rfl | rfl | rfl <;> rfl

/-- Witness for C9 at a concrete snapshot, path and session. -/
theorem c9_witness :
    applyTrace (fun x => x) (saveTrace exState1 "/tmp/s.json") ⟨[], fun _ => []⟩ =
      ⟨[], fun _ => []⟩ :=
  (c9_save_session_read_only exState1 "/tmp/s.json" (fun x => x) ⟨[], fun _ => []⟩).1

/-- Sample items for the duplicate-origin scenario: one key written to
`1`. -/
def itsA : List Json := [Json.obj [("name", Json.str "k"), ("value", Json.str "1")]]

/-- Sample items for the duplicate-origin scenario: the same key written
to `2`. -/
def itsB : List Json := [Json.obj [("name", Json.str "k"), ("value", Json.str "2")]]

/-- C10: a snapshot with two entries for the same origin is restored
without deduplication — both entries are processed, in sequence order, by
one injection each (the first preceded by the single navigation when the
tab starts elsewhere) — and for any key assigned by both entries the
value that remains in the storage partition of that origin is the last value
of the second entry. -/
theorem c10_duplicate_origins_last_wins (c : Collab) (p u0 o : String)
    (its1 its2 : List Json) (partOf : String → String) (s : Session) (k : String)
    (h1 : its1 ≠ []) (h2 : its2 ≠ [])
    (hu0 : jsStartsWith u0 o = false)
    (hnav : c.nav o = .ok o)
    (heval : ∀ j, c.evalInject j = .ok ())
    (hk1 : lastValue its1 k ≠ none) (hk2 : lastValue its2 k ≠ none) :
    loadAction c p u0 (.ok (dupState o its1 its2)) =
      ⟨[Event.readFile p, Event.goto o,
        Event.evaluate o o injectScript (Json.arr its1),
        Event.evaluate o o injectScript (Json.arr its2)], o, none⟩
    ∧ alookup ((applyTrace partOf
          [Event.readFile p, Event.goto o,
           Event.evaluate o o injectScript (Json.arr its1),
           Event.evaluate o o injectScript (Json.arr its2)] s).store (partOf o)) k =
        lastValue its2 k := by
  have hinj : ∀ (u2 : String) (its : List Json), its ≠ [] →
      injectPart c u2 o (originEntry o its) =
        ⟨[Event.evaluate u2 o injectScript (Json.arr its)], u2, none⟩ := by
    intro u2 its hne
    have hl : (originEntry o its).get? "localStorage" = some (Json.arr its) := rfl
    simp [injectPart, hl, jsGuardNonEmpty, truthy, jsLengthPos, List.length_pos, hne,
      heval]
  have hpo1 : processOrigin c u0 (originEntry o its1) =
      ⟨[Event.goto o, Event.evaluate o o injectScript (Json.arr its1)], o, none⟩ := by
    have horig : (originEntry o its1).get? "origin" = some (Json.str o) := rfl
    simp [processOrigin, horig, jsToString, jsToStr, hu0, hnav, hinj o its1 h1]
  have hpo2 : processOrigin c o (originEntry o its2) =
      ⟨[Event.evaluate o o injectScript (Json.arr its2)], o, none⟩ := by
    have horig : (originEntry o its2).get? "origin" = some (Json.str o) := rfl
    simp [processOrigin, horig, jsToString, jsToStr, jsStartsWith_self, hinj o its2 h2]
  have hrun : runOrigins c u0 [originEntry o its1, originEntry o its2] =
      ⟨[Event.goto o, Event.evaluate o o injectScript (Json.arr its1),
        Event.evaluate o o injectScript (Json.arr its2)], o, none⟩ := by
    simp [runOrigins, hpo1, hpo2]
  constructor
  · have hcook : (dupState o its1 its2).get? "cookies" = none := rfl
    have horigins : originsList (dupState o its1 its2) =
        .ok [originEntry o its1, originEntry o its2] := rfl
    simp [loadAction, hcook, jsGuardNonEmpty, truthy, afterCookies, horigins, hrun]
  · have hstore : (applyTrace partOf
        [Event.readFile p, Event.goto o,
         Event.evaluate o o injectScript (Json.arr its1),
         Event.evaluate o o injectScript (Json.arr its2)] s).store (partOf o) =
        setItems its2 (setItems its1 (s.store (partOf o))) := by
      simp [applyTrace, applyEvent, jsIterate]
    rw [hstore, alookup_setItems, alookup_setItems]
    obtain ⟨v, hv⟩ := Option.ne_none_iff_exists'.mp hk2
    simp [hv, Option.orElse]

/-- Witness for C10: both duplicate entries run, and key `k` ends at the
value of the second entry. -/
theorem c10_witness :
    loadAction cOk "pX" "zzz" (.ok (dupState "https://e" itsA itsB)) =
      ⟨[Event.readFile "pX", Event.goto "https://e",
        Event.evaluate "https://e" "https://e" injectScript (Json.arr itsA),
        Event.evaluate "https://e" "https://e" injectScript (Json.arr itsB)],
        "https://e", none⟩
    ∧ alookup ((applyTrace (fun x => x)
          [Event.readFile "pX", Event.goto "https://e",
           Event.evaluate "https://e" "https://e" injectScript (Json.arr itsA),
           Event.evaluate "https://e" "https://e" injectScript (Json.arr itsB)]
          ⟨[], fun _ => []⟩).store "https://e") "k" = lastValue itsB "k" :=
  c10_duplicate_origins_last_wins cOk "pX" "zzz" "https://e" itsA itsB (fun x => x)
    ⟨[], fun _ => []⟩ "k" (by simp [itsA]) (by simp [itsB]) (by decide) rfl
    (fun _ => rfl) (by decide) (by decide)
